import Mathlib

/-!
Shallow embedding of `loader.py` from NickRoz1/Hospital-Simulation.

The program reads a JSON array of contact records from a file, trims the
first and last array elements, and, for each of two hard-coded infected
agent identifiers, collects in order the `agent_2` value of every record
whose `agent_1` equals that identifier, finally printing the resulting
mapping.

JSON objects are modelled as association lists from field names to string
values; Python's `KeyError` on a missing field, `FileNotFoundError` on a
missing file and `json.JSONDecodeError` on malformed content are modelled
by an `Except` error type.
-/

namespace HospitalSim

set_option autoImplicit false

/-- A JSON object (one contact record), modelled as an association list
from field names to string values.  Extra fields are simply extra pairs. -/
abbrev Record := List (String × String)

/-- The result mapping: an ordered association list from infected
identifier to the ordered list of contacted agents (a Python dict keeps
insertion order). -/
abbrev Mapping := List (String × List String)

/-- Python subscript access `r[k]` on a JSON object: the value of the
first pair whose field name is `k`, or `none` when the field is missing. -/
def getField (r : Record) (k : String) : Option String :=
  match r.find? (fun p => p.1 == k) with
  | some p => some p.2
  | none => none

/-- Error classes of a run: Python `KeyError` (field access on a record),
`FileNotFoundError`, and `json.JSONDecodeError`. -/
inductive Err where
  | fieldAccess : String → Err
  | notFound : Err
  | parse : Err
deriving DecidableEq

/-- The hard-coded `infected` list of loader.py, in source order. -/
def infected : List String :=
  ["64c0a6f2-9900-44d7-ac44-17d8b3e388e0",
   "1a57a4a3-0815-48a2-98be-00375fa5bda8"]

/-- First infected identifier. -/
def infected0 : String := "64c0a6f2-9900-44d7-ac44-17d8b3e388e0"

/-- Second infected identifier. -/
def infected1 : String := "1a57a4a3-0815-48a2-98be-00375fa5bda8"

/-- Python slice `[1:-1]` applied to the parsed array: drop the first and
the last element (total on every list, empty output on length ≤ 2). -/
def trim (xs : List Record) : List Record :=
  (xs.drop 1).dropLast

/-- The dict comprehension `{key: [] for key in infected}`: one empty
ordered sequence per key, keys in list order. -/
def emptyMapping (keys : List String) : Mapping :=
  keys.map (fun k => (k, []))

/-- The statement `metWithInfected[infect].append(v)`: append `v` to the
sequence stored under key `infect`, leaving every other entry unchanged. -/
def appendContact (m : Mapping) (infect v : String) : Mapping :=
  m.map (fun p => if p.1 = infect then (p.1, p.2 ++ [v]) else p)

/-- The inner `for contact in contacts` loop of loader.py for one infected
identifier: test `contact["agent_1"] == infect` on each record in order
and append `contact["agent_2"]` on a match; a missing field aborts the run
with a field-access error the moment it is subscripted. -/
def innerLoop (infect : String) (m : Mapping) :
    List Record → Except Err Mapping
  | [] => .ok m
  | c :: cs =>
    match getField c "agent_1" with
    | none => .error (.fieldAccess "agent_1")
    | some a1 =>
      if a1 = infect then
        match getField c "agent_2" with
        | none => .error (.fieldAccess "agent_2")
        | some a2 => innerLoop infect (appendContact m infect a2) cs
      else
        innerLoop infect m cs

/-- The outer `for infect in infected` loop of loader.py: run the inner
loop once per infected identifier, in order, threading the mapping. -/
def outerLoop (contacts : List Record) (m : Mapping) :
    List String → Except Err Mapping
  | [] => .ok m
  | i :: is =>
    match innerLoop i m contacts with
    | .error e => .error e
    | .ok m' => outerLoop contacts m' is

/-- The whole aggregation of loader.py: initialize the mapping with an
empty sequence per infected identifier, then run the nested loops. -/
def metWithInfected (contacts : List Record) : Except Err Mapping :=
  outerLoop contacts (emptyMapping infected) infected

/-- The state of the input file a run is given: absent, present with
content that is not valid JSON, or present and parsed to an array of
records. -/
inductive FileInput where
  | missing : FileInput
  | invalidJson : FileInput
  | parsed : List Record → FileInput

/-- Modelled from the spec: `open` and `json.load` are library calls whose
failure behavior (NotFoundError on a missing file, ParseError on malformed
JSON, both before any output) is not itself code under src/, and the spec
records two observed variants that differ only in whether the parsed array
is sliced with `[1:-1]`; the DESIGN NOTES require the trimming to be an
explicit `trim_sentinels` flag.  A run parses the file, optionally trims,
aggregates, and the `.ok` payload is exactly what `print` writes — an
error run prints nothing. -/
def runProgram (input : FileInput) (trimSentinels : Bool) : Except Err Mapping :=
  match input with
  | .missing => .error .notFound
  | .invalidJson => .error .parse
  | .parsed arr => metWithInfected (if trimSentinels then trim arr else arr)

/-- What a run prints to standard output: the result mapping on success,
nothing on any error. -/
def printed (r : Except Err Mapping) : Option Mapping :=
  match r with
  | .ok out => some out
  | .error _ => none

/-- The spec's own description of the result sequence for identifier `i`:
the ordered sub-sequence of `agent_2` values taken from exactly those
records whose `agent_1` equals `i`, duplicates and order preserved. -/
def specContacted (i : String) (contacts : List Record) : List String :=
  (contacts.filter (fun c => getField c "agent_1" == some i)).filterMap
    (fun c => getField c "agent_2")

/-- Appending a whole list of values to the entry of `k`; `appendContact`
is the singleton case, and this is what the inner loop accumulates. -/
def appendMany (m : Mapping) (k : String) (vs : List String) : Mapping :=
  m.map (fun p => if p.1 = k then (p.1, p.2 ++ vs) else p)

/-- Two records agree on the two fields the program reads: equal
`agent_1` and equal `agent_2` (either may be missing in both). -/
def recAgree (r r' : Record) : Bool :=
  (getField r "agent_1" == getField r' "agent_1") &&
    (getField r "agent_2" == getField r' "agent_2")

/-- Two contact sequences of the same length whose records pairwise agree
on `agent_1` and `agent_2`; they may differ in any extra fields. -/
def seqAgree : List Record → List Record → Bool
  | [], [] => true
  | c :: cs, c' :: cs' => recAgree c c' && seqAgree cs cs'
  | _, _ => false

/-- A contact sequence used to exercise the C1 theorem: matched records
for both infected identifiers, a duplicate, and an unmatched record. -/
def sampleC1 : List Record :=
  [[("agent_1", "64c0a6f2-9900-44d7-ac44-17d8b3e388e0"), ("agent_2", "X")],
   [("agent_1", "someone-healthy"), ("agent_2", "W")],
   [("agent_1", "1a57a4a3-0815-48a2-98be-00375fa5bda8"), ("agent_2", "Y")],
   [("agent_1", "64c0a6f2-9900-44d7-ac44-17d8b3e388e0"), ("agent_2", "X")]]

lemma appendMany_nil (m : Mapping) (k : String) : appendMany m k [] = m := by
  simp [appendMany]

lemma appendMany_appendContact (m : Mapping) (k v : String) (vs : List String) :
    appendMany (appendContact m k v) k vs = appendMany m k (v :: vs) := by
  induction m with
  | nil => rfl
  | cons p ps ih =>
    by_cases hp : p.1 = k
    · simp [appendMany, appendContact, hp] at ih ⊢
      exact ih
    · simp [appendMany, appendContact, hp] at ih ⊢
      exact ih

lemma appendContact_fst (m : Mapping) (k v : String) :
    (appendContact m k v).map Prod.fst = m.map Prod.fst := by
  induction m with
  | nil => rfl
  | cons p ps ih =>
    by_cases hp : p.1 = k
    · simp [appendContact, hp] at ih ⊢
      exact ih
    · simp [appendContact, hp] at ih ⊢
      exact ih

lemma emptyMapping_fst (keys : List String) :
    (emptyMapping keys).map Prod.fst = keys := by
  induction keys with
  | nil => rfl
  | cons k ks ih => simpa [emptyMapping] using ih

lemma innerLoop_ok_fst (i : String) :
    ∀ (cs : List Record) (m m' : Mapping), innerLoop i m cs = .ok m' →
      m'.map Prod.fst = m.map Prod.fst := by
  intro cs
  induction cs with
  | nil =>
    intro m m' h
    simp [innerLoop] at h
    rw [h]
  | cons c cs ih =>
    intro m m' h
    cases hg1 : getField c "agent_1" with
    | none => simp [innerLoop, hg1] at h
    | some a1 =>
      by_cases hi : a1 = i
      · subst hi
        cases hg2 : getField c "agent_2" with
        | none => simp [innerLoop, hg1, hg2] at h
        | some a2 =>
          simp only [innerLoop, hg1, hg2, if_pos rfl] at h
          have := ih (appendContact m a1 a2) m' h
          rw [this, appendContact_fst]
      · simp only [innerLoop, hg1, if_neg hi] at h
        exact ih m m' h

lemma outerLoop_ok_fst (contacts : List Record) :
    ∀ (is : List String) (m m' : Mapping), outerLoop contacts m is = .ok m' →
      m'.map Prod.fst = m.map Prod.fst := by
  intro is
  induction is with
  | nil =>
    intro m m' h
    simp [outerLoop] at h
    rw [h]
  | cons i is ih =>
    intro m m' h
    cases hil : innerLoop i m contacts with
    | error e => simp [outerLoop, hil] at h
    | ok m1 =>
      simp only [outerLoop, hil] at h
      have h1 := innerLoop_ok_fst i contacts m m1 hil
      have h2 := ih m1 m' h
      rw [h2, h1]

lemma innerLoop_error_shape (i : String) :
    ∀ (cs : List Record) (m : Mapping) (e : Err), innerLoop i m cs = .error e →
      ∃ f, e = .fieldAccess f := by
  intro cs
  induction cs with
  | nil => intro m e h; simp [innerLoop] at h
  | cons c cs ih =>
    intro m e h
    cases hg1 : getField c "agent_1" with
    | none =>
      simp only [innerLoop, hg1] at h
      exact ⟨"agent_1", (Except.error.injEq _ _).mp h.symm⟩
    | some a1 =>
      by_cases hi : a1 = i
      · subst hi
        cases hg2 : getField c "agent_2" with
        | none =>
          simp only [innerLoop, hg1, hg2, if_pos rfl] at h
          exact ⟨"agent_2", (Except.error.injEq _ _).mp h.symm⟩
        | some a2 =>
          simp only [innerLoop, hg1, hg2, if_pos rfl] at h
          exact ih (appendContact m a1 a2) e h
      · simp only [innerLoop, hg1, if_neg hi] at h
        exact ih m e h

lemma outerLoop_error_shape (contacts : List Record) :
    ∀ (is : List String) (m : Mapping) (e : Err), outerLoop contacts m is = .error e →
      ∃ f, e = .fieldAccess f := by
  intro is
  induction is with
  | nil => intro m e h; simp [outerLoop] at h
  | cons i is ih =>
    intro m e h
    cases hil : innerLoop i m contacts with
    | error e' =>
      simp only [outerLoop, hil] at h
      obtain ⟨f, hf⟩ := innerLoop_error_shape i contacts m e' hil
      exact ⟨f, ((Except.error.injEq _ _).mp h.symm).trans hf⟩
    | ok m1 =>
      simp only [outerLoop, hil] at h
      exact ih m1 e h

lemma innerLoop_ok_mem (i : String) :
    ∀ (cs : List Record) (m m' : Mapping), innerLoop i m cs = .ok m' →
      ∀ c ∈ cs, (getField c "agent_1").isSome ∧
        (getField c "agent_1" = some i → (getField c "agent_2").isSome) := by
  intro cs
  induction cs with
  | nil => intro m m' _ c hc; exact absurd hc (List.not_mem_nil c)
  | cons c0 cs ih =>
    intro m m' h c hc
    cases hg1 : getField c0 "agent_1" with
    | none => simp [innerLoop, hg1] at h
    | some a1 =>
      by_cases hi : a1 = i
      · subst hi
        cases hg2 : getField c0 "agent_2" with
        | none => simp [innerLoop, hg1, hg2] at h
        | some a2 =>
          simp only [innerLoop, hg1, hg2, if_pos rfl] at h
          rcases List.mem_cons.mp hc with hc0 | hcs
          · subst hc0
            exact ⟨by simp [hg1], fun _ => by simp [hg2]⟩
          · exact ih (appendContact m a1 a2) m' h c hcs
      · simp only [innerLoop, hg1, if_neg hi] at h
        rcases List.mem_cons.mp hc with hc0 | hcs
        · subst hc0
          refine ⟨by simp [hg1], fun hgi => ?_⟩
          rw [hg1] at hgi
          exact absurd (Option.some.injEq a1 i ▸ hgi) hi
        · exact ih m m' h c hcs

lemma outerLoop_ok_mem (contacts : List Record) :
    ∀ (is : List String) (m m' : Mapping), outerLoop contacts m is = .ok m' →
      ∀ i ∈ is, ∀ c ∈ contacts, (getField c "agent_1").isSome ∧
        (getField c "agent_1" = some i → (getField c "agent_2").isSome) := by
  intro is
  induction is with
  | nil => intro m m' _ i hi; exact absurd hi (List.not_mem_nil i)
  | cons i0 is ih =>
    intro m m' h i hi
    cases hil : innerLoop i0 m contacts with
    | error e => simp [outerLoop, hil] at h
    | ok m1 =>
      simp only [outerLoop, hil] at h
      rcases List.mem_cons.mp hi with hi0 | his
      · subst hi0
        exact innerLoop_ok_mem i contacts m m1 hil
      · exact ih m1 m' h i his

lemma innerLoop_ok_spec (i : String) :
    ∀ (cs : List Record) (m : Mapping),
      (∀ c ∈ cs, (getField c "agent_1").isSome ∧
        (getField c "agent_1" = some i → (getField c "agent_2").isSome)) →
      innerLoop i m cs = .ok (appendMany m i (specContacted i cs)) := by
  intro cs
  induction cs with
  | nil => intro m _; simp [innerLoop, specContacted, appendMany_nil]
  | cons c cs ih =>
    intro m h
    obtain ⟨h1, h2⟩ := h c (List.mem_cons_self c cs)
    have htail := fun c' hc' => h c' (List.mem_cons_of_mem c hc')
    obtain ⟨a1, hg1⟩ := Option.isSome_iff_exists.mp h1
    by_cases hi : a1 = i
    · subst hi
      obtain ⟨a2, hg2⟩ := Option.isSome_iff_exists.mp (h2 hg1)
      have hrec := ih (appendContact m a1 a2) htail
      have hsc : specContacted a1 (c :: cs) = a2 :: specContacted a1 cs := by
        simp [specContacted, List.filter_cons, List.filterMap_cons, hg1, hg2]
      simp only [innerLoop, hg1, hg2, if_pos rfl]
      rw [hrec, appendMany_appendContact, hsc]
      simp
    · have hrec := ih m htail
      have hsc : specContacted i (c :: cs) = specContacted i cs := by
        simp [specContacted, List.filter_cons, hg1, hi]
      simp only [innerLoop, hg1, if_neg hi]
      rw [hrec, hsc]

lemma innerLoop_error_agent2 (i : String) :
    ∀ (cs : List Record) (m : Mapping) (e : Err),
      (∀ c ∈ cs, (getField c "agent_1").isSome) →
      innerLoop i m cs = .error e →
      ∃ c ∈ cs, getField c "agent_1" = some i ∧ getField c "agent_2" = none := by
  intro cs
  induction cs with
  | nil => intro m e _ h; simp [innerLoop] at h
  | cons c cs ih =>
    intro m e hwf h
    obtain ⟨a1, hg1⟩ :=
      Option.isSome_iff_exists.mp (hwf c (List.mem_cons_self c cs))
    have hwftail := fun c' hc' => hwf c' (List.mem_cons_of_mem c hc')
    by_cases hi : a1 = i
    · subst hi
      cases hg2 : getField c "agent_2" with
      | none => exact ⟨c, List.mem_cons_self c cs, hg1, hg2⟩
      | some a2 =>
        simp only [innerLoop, hg1, hg2, if_pos rfl] at h
        obtain ⟨c', hc', hprop⟩ := ih (appendContact m a1 a2) e hwftail h
        exact ⟨c', List.mem_cons_of_mem c hc', hprop⟩
    · simp only [innerLoop, hg1, if_neg hi] at h
      obtain ⟨c', hc', hprop⟩ := ih m e hwftail h
      exact ⟨c', List.mem_cons_of_mem c hc', hprop⟩

lemma outerLoop_error_agent2 (contacts : List Record) :
    ∀ (is : List String) (m : Mapping) (e : Err),
      (∀ c ∈ contacts, (getField c "agent_1").isSome) →
      outerLoop contacts m is = .error e →
      ∃ i ∈ is, ∃ c ∈ contacts,
        getField c "agent_1" = some i ∧ getField c "agent_2" = none := by
  intro is
  induction is with
  | nil => intro m e _ h; simp [outerLoop] at h
  | cons i0 is ih =>
    intro m e hwf h
    cases hil : innerLoop i0 m contacts with
    | error e' =>
      obtain ⟨c, hc, hprop⟩ := innerLoop_error_agent2 i0 contacts m e' hwf hil
      exact ⟨i0, List.mem_cons_self i0 is, c, hc, hprop⟩
    | ok m1 =>
      simp only [outerLoop, hil] at h
      obtain ⟨i, hi, hrest⟩ := ih m1 e hwf h
      exact ⟨i, List.mem_cons_of_mem i0 hi, hrest⟩

lemma infected_eq : infected = [infected0, infected1] := rfl

lemma innerLoop_agree (i : String) :
    ∀ (cs cs' : List Record), seqAgree cs cs' = true →
      ∀ m, innerLoop i m cs = innerLoop i m cs' := by
  intro cs
  induction cs with
  | nil =>
    intro cs' h m
    cases cs' with
    | nil => rfl
    | cons c' cs'' => simp [seqAgree] at h
  | cons c cs ih =>
    intro cs' h m
    cases cs' with
    | nil => simp [seqAgree] at h
    | cons c' cs'' =>
      have h' : recAgree c c' = true ∧ seqAgree cs cs'' = true := by
        simpa [seqAgree, Bool.and_eq_true] using h
      have hrec : getField c "agent_1" = getField c' "agent_1" ∧
          getField c "agent_2" = getField c' "agent_2" := by
        have := h'.1
        simpa [recAgree, Bool.and_eq_true] using this
      simp only [innerLoop]
      rw [hrec.1, hrec.2]
      simp only [ih cs'' h'.2]

lemma outerLoop_agree (cs cs' : List Record) (h : seqAgree cs cs' = true) :
    ∀ (is : List String) (m : Mapping),
      outerLoop cs m is = outerLoop cs' m is := by
  intro is
  induction is with
  | nil => intro m; rfl
  | cons i is ih =>
    intro m
    simp only [outerLoop]
    rw [innerLoop_agree i cs cs' h m]
    simp only [ih]

lemma metWithInfected_agree (cs cs' : List Record) (h : seqAgree cs cs' = true) :
    metWithInfected cs = metWithInfected cs' :=
  outerLoop_agree cs cs' h infected (emptyMapping infected)

lemma seqAgree_drop1 (cs cs' : List Record) (h : seqAgree cs cs' = true) :
    seqAgree (cs.drop 1) (cs'.drop 1) = true := by
  cases cs with
  | nil =>
    cases cs' with
    | nil => simpa using h
    | cons c' cs'' => simp [seqAgree] at h
  | cons c cs =>
    cases cs' with
    | nil => simp [seqAgree] at h
    | cons c' cs'' =>
      have h' : recAgree c c' = true ∧ seqAgree cs cs'' = true := by
        simpa [seqAgree, Bool.and_eq_true] using h
      simpa using h'.2

lemma seqAgree_dropLast :
    ∀ (cs cs' : List Record), seqAgree cs cs' = true →
      seqAgree cs.dropLast cs'.dropLast = true := by
  intro cs
  induction cs with
  | nil =>
    intro cs' h
    cases cs' with
    | nil => simpa using h
    | cons c' cs'' => simp [seqAgree] at h
  | cons c cs ih =>
    intro cs' h
    cases cs' with
    | nil => simp [seqAgree] at h
    | cons c' cs'' =>
      have h' : recAgree c c' = true ∧ seqAgree cs cs'' = true := by
        simpa [seqAgree, Bool.and_eq_true] using h
      cases cs with
      | nil =>
        cases cs'' with
        | nil => simp [List.dropLast, seqAgree]
        | cons d' ds' => simp [seqAgree] at h'
      | cons d ds =>
        cases cs'' with
        | nil => simp [seqAgree] at h'
        | cons d' ds' =>
          have := ih (d' :: ds') h'.2
          simp only [List.dropLast_cons₂]
          simp [seqAgree, Bool.and_eq_true, h'.1]
          exact this

lemma seqAgree_trim (cs cs' : List Record) (h : seqAgree cs cs' = true) :
    seqAgree (trim cs) (trim cs') = true :=
  seqAgree_dropLast (cs.drop 1) (cs'.drop 1) (seqAgree_drop1 cs cs' h)

/-- C1: for every contact sequence whose records carry both fields, the
result sequence for each infected identifier equals the ordered
sub-sequence of `agent_2` values from exactly the records whose `agent_1`
equals that identifier, duplicates and order preserved; a record matching
neither identifier contributes to neither sequence (it is outside both
filters). -/
theorem metWithInfected_matches_spec (contacts : List Record)
    (h : ∀ c ∈ contacts, (getField c "agent_1").isSome ∧
      (getField c "agent_2").isSome) :
    metWithInfected contacts =
      .ok [(infected0, specContacted infected0 contacts),
           (infected1, specContacted infected1 contacts)] := by
  have hw : ∀ i : String, ∀ c ∈ contacts, (getField c "agent_1").isSome ∧
      (getField c "agent_1" = some i → (getField c "agent_2").isSome) :=
    fun i c hc => ⟨(h c hc).1, fun _ => (h c hc).2⟩
  have h0 := innerLoop_ok_spec infected0 contacts (emptyMapping infected)
    (hw infected0)
  have h1 := innerLoop_ok_spec infected1 contacts
    (appendMany (emptyMapping infected) infected0 (specContacted infected0 contacts))
    (hw infected1)
  have hne : infected1 ≠ infected0 := by decide
  have hne' : infected0 ≠ infected1 := by decide
  unfold metWithInfected
  rw [infected_eq] at h0 h1 ⊢
  simp only [outerLoop, h0, h1]
  simp [appendMany, emptyMapping, hne, hne']

/-- Witness for C1 on `sampleC1`. -/
theorem metWithInfected_matches_spec_witness :
    metWithInfected sampleC1 =
      .ok [(infected0, specContacted infected0 sampleC1),
           (infected1, specContacted infected1 sampleC1)] :=
  metWithInfected_matches_spec sampleC1 (by decide)

/-- C2: every completed run's result mapping has exactly the two infected
identifiers as keys, in order (the keys come from the initialisation and
the loops never add or remove one), and the empty contact sequence yields
both keys mapped to empty sequences. -/
theorem resultMapping_keys (contacts : List Record) (res : Mapping)
    (h : metWithInfected contacts = .ok res) :
    res.map Prod.fst = infected ∧
      metWithInfected ([] : List Record) =
        .ok [(infected0, []), (infected1, [])] := by
  refine ⟨?_, rfl⟩
  have := outerLoop_ok_fst contacts infected (emptyMapping infected) res h
  rw [this, emptyMapping_fst]

/-- Witness for C2 on the empty contact sequence. -/
theorem resultMapping_keys_witness :
    ([(infected0, ([] : List String)), (infected1, [])] : Mapping).map Prod.fst
        = infected ∧
      metWithInfected ([] : List Record) =
        .ok [(infected0, []), (infected1, [])] :=
  resultMapping_keys [] [(infected0, []), (infected1, [])] rfl

/-- C3: Scenario A — the two-record input, processed without trimming,
prints the mapping sending the first infected identifier to `["X"]` and
the second to `["Y"]`. -/
theorem scenarioA_output :
    runProgram (.parsed
        [[("agent_1", "64c0a6f2-9900-44d7-ac44-17d8b3e388e0"), ("agent_2", "X")],
         [("agent_1", "1a57a4a3-0815-48a2-98be-00375fa5bda8"), ("agent_2", "Y")]])
        false =
      .ok [("64c0a6f2-9900-44d7-ac44-17d8b3e388e0", ["X"]),
           ("1a57a4a3-0815-48a2-98be-00375fa5bda8", ["Y"])] := rfl

/-- C4: Scenario B — with trimming enabled, the sentinel first and last
records are discarded so only the middle record is processed, and the run
prints the first identifier mapped to `["Z"]` and the second to `[]`. -/
theorem scenarioB_output :
    trim [[("agent_1", "SENTINEL"), ("agent_2", "SENTINEL")],
          [("agent_1", "64c0a6f2-9900-44d7-ac44-17d8b3e388e0"), ("agent_2", "Z")],
          [("agent_1", "SENTINEL"), ("agent_2", "SENTINEL")]] =
        [[("agent_1", "64c0a6f2-9900-44d7-ac44-17d8b3e388e0"), ("agent_2", "Z")]] ∧
      runProgram (.parsed
        [[("agent_1", "SENTINEL"), ("agent_2", "SENTINEL")],
         [("agent_1", "64c0a6f2-9900-44d7-ac44-17d8b3e388e0"), ("agent_2", "Z")],
         [("agent_1", "SENTINEL"), ("agent_2", "SENTINEL")]])
        true =
      .ok [("64c0a6f2-9900-44d7-ac44-17d8b3e388e0", ["Z"]),
           ("1a57a4a3-0815-48a2-98be-00375fa5bda8", [])] := ⟨rfl, rfl⟩

/-- C5 counterexample: a contact sequence containing a record that lacks
`agent_2` but whose `agent_1` matches neither infected identifier is
processed to completion — the run does not fail, refuting the claim that
any record missing `agent_1` or `agent_2` aborts the run. -/
theorem missing_agent2_unmatched_no_failure :
    getField [("agent_1", "someone-healthy")] "agent_2" = none ∧
      metWithInfected [[("agent_1", "someone-healthy")]] =
        .ok [(infected0, []), (infected1, [])] ∧
      ¬ ∃ e, metWithInfected [[("agent_1", "someone-healthy")]] = .error e := by
  refine ⟨rfl, rfl, ?_⟩
  rintro ⟨e, he⟩
  rw [show metWithInfected [[("agent_1", "someone-healthy")]] =
        .ok [(infected0, []), (infected1, [])] from rfl] at he
  exact Except.noConfusion he

/-- C5 amended: a record missing `agent_1` aborts the run with a
field-access failure, and a record missing `agent_2` aborts it when its
`agent_1` equals one of the two infected identifiers. -/
theorem missing_field_failure_amended (contacts : List Record)
    (h : ∃ c ∈ contacts, getField c "agent_1" = none ∨
      (getField c "agent_2" = none ∧
        ∃ i ∈ infected, getField c "agent_1" = some i)) :
    ∃ f, metWithInfected contacts = .error (Err.fieldAccess f) := by
  cases hmet : metWithInfected contacts with
  | ok res =>
    exfalso
    obtain ⟨c, hc, hbad⟩ := h
    have hmem := outerLoop_ok_mem contacts infected (emptyMapping infected) res hmet
    rcases hbad with hnone | ⟨h2none, i, hi, h1some⟩
    · have h0mem : infected0 ∈ infected := by decide
      have := (hmem infected0 h0mem c hc).1
      rw [hnone] at this
      simp at this
    · have := (hmem i hi c hc).2 h1some
      rw [h2none] at this
      simp at this
  | error e =>
    obtain ⟨f, hf⟩ :=
      outerLoop_error_shape contacts infected (emptyMapping infected) e hmet
    exact ⟨f, by rw [hf]⟩

/-- Witness for the amended C5: a matched record lacking `agent_2`. -/
theorem missing_field_failure_amended_witness :
    ∃ f, metWithInfected
        [[("agent_1", "64c0a6f2-9900-44d7-ac44-17d8b3e388e0")]] =
      .error (Err.fieldAccess f) :=
  missing_field_failure_amended
    [[("agent_1", "64c0a6f2-9900-44d7-ac44-17d8b3e388e0")]] (by decide)

/-- C6: a missing input file fails with the not-found error, content that
is not valid JSON fails with the parse error, whichever trimming variant
is configured, and in both cases nothing is printed. -/
theorem file_errors_abort_without_output (t : Bool) :
    runProgram .missing t = .error .notFound ∧
      runProgram .invalidJson t = .error .parse ∧
      printed (runProgram .missing t) = none ∧
      printed (runProgram .invalidJson t) = none :=
  ⟨rfl, rfl, rfl, rfl⟩

/-- Witness for C6 with trimming enabled. -/
theorem file_errors_abort_without_output_witness :
    runProgram .missing true = .error .notFound ∧
      runProgram .invalidJson true = .error .parse ∧
      printed (runProgram .missing true) = none ∧
      printed (runProgram .invalidJson true) = none :=
  file_errors_abort_without_output true

/-- C7: the computation is deterministic — two runs on the same file
state with the same trimming configuration produce the same result
mapping and the same printed output. -/
theorem deterministic_runs (input input' : FileInput) (t t' : Bool)
    (hi : input = input') (ht : t = t') :
    runProgram input t = runProgram input' t' ∧
      printed (runProgram input t) = printed (runProgram input' t') := by
  subst hi
  subst ht
  exact ⟨rfl, rfl⟩

/-- Witness for C7 at the Scenario-A style input. -/
theorem deterministic_runs_witness :
    runProgram (.parsed []) true = runProgram (.parsed []) true ∧
      printed (runProgram (.parsed []) true) =
        printed (runProgram (.parsed []) true) :=
  deterministic_runs (.parsed []) (.parsed []) true true rfl rfl

/-- C8: the output depends only on the `agent_1` and `agent_2` fields of
the records: two parsed arrays whose records pairwise agree on those two
fields give the same result under either trimming variant — extra fields
are ignored. -/
theorem extra_fields_ignored (cs cs' : List Record) (t : Bool)
    (h : seqAgree cs cs' = true) :
    runProgram (.parsed cs) t = runProgram (.parsed cs') t := by
  cases t with
  | false =>
    simp only [runProgram, Bool.false_eq_true, if_false]
    exact metWithInfected_agree cs cs' h
  | true =>
    simp only [runProgram, if_true]
    exact metWithInfected_agree (trim cs) (trim cs') (seqAgree_trim cs cs' h)

/-- Witness for C8: one record with an extra field against the same
record without it. -/
theorem extra_fields_ignored_witness :
    runProgram (.parsed
        [[("agent_1", "64c0a6f2-9900-44d7-ac44-17d8b3e388e0"),
          ("agent_2", "X"), ("note", "extra-field")]]) false =
      runProgram (.parsed
        [[("agent_1", "64c0a6f2-9900-44d7-ac44-17d8b3e388e0"),
          ("agent_2", "X")]]) false :=
  extra_fields_ignored _ _ false (by decide)

/-- C9: the slice `[1:-1]` is total on short arrays — zero or one parsed
elements trim to the empty contact sequence, so the run completes and
prints both keys mapped to empty sequences. -/
theorem trim_short_yields_empty (arr : List Record) (h : arr.length ≤ 1) :
    trim arr = [] ∧
      runProgram (.parsed arr) true = .ok [(infected0, []), (infected1, [])] := by
  have htrim : trim arr = [] := by
    match arr with
    | [] => rfl
    | [a] => rfl
    | a :: b :: rest => simp at h
  refine ⟨htrim, ?_⟩
  have hrun : runProgram (.parsed arr) true = metWithInfected (trim arr) := rfl
  rw [hrun, htrim]
  rfl

/-- Witness for C9 on a one-element array. -/
theorem trim_short_yields_empty_witness :
    trim [[("agent_1", "SENTINEL"), ("agent_2", "SENTINEL")]] = [] ∧
      runProgram (.parsed [[("agent_1", "SENTINEL"), ("agent_2", "SENTINEL")]])
          true =
        .ok [(infected0, []), (infected1, [])] :=
  trim_short_yields_empty [[("agent_1", "SENTINEL"), ("agent_2", "SENTINEL")]]
    (by decide)

/-- C10: when every record carries `agent_1`, the run fails with a
field-access failure exactly when some record whose `agent_1` equals one
of the two infected identifiers lacks `agent_2`; when no such record
exists the run completes — a record lacking `agent_2` whose `agent_1`
matches neither identifier is silently skipped, because `agent_2` is
subscripted only after the `agent_1` equality test succeeds. -/
theorem agent2_access_iff (contacts : List Record)
    (h1 : ∀ c ∈ contacts, (getField c "agent_1").isSome) :
    ((∃ f, metWithInfected contacts = .error (Err.fieldAccess f)) ↔
      (∃ c ∈ contacts, getField c "agent_2" = none ∧
        ∃ i ∈ infected, getField c "agent_1" = some i)) ∧
      ((¬ ∃ c ∈ contacts, getField c "agent_2" = none ∧
          ∃ i ∈ infected, getField c "agent_1" = some i) →
        ∃ res, metWithInfected contacts = .ok res) := by
  have fwd : (∃ f, metWithInfected contacts = .error (Err.fieldAccess f)) →
      ∃ c ∈ contacts, getField c "agent_2" = none ∧
        ∃ i ∈ infected, getField c "agent_1" = some i := by
    rintro ⟨f, hf⟩
    obtain ⟨i, hi, c, hc, hg1, hg2⟩ :=
      outerLoop_error_agent2 contacts infected (emptyMapping infected)
        (Err.fieldAccess f) h1 hf
    exact ⟨c, hc, hg2, i, hi, hg1⟩
  have bwd : (∃ c ∈ contacts, getField c "agent_2" = none ∧
      ∃ i ∈ infected, getField c "agent_1" = some i) →
      ∃ f, metWithInfected contacts = .error (Err.fieldAccess f) := by
    rintro ⟨c, hc, hg2, i, hi, hg1⟩
    cases hmet : metWithInfected contacts with
    | ok res =>
      exfalso
      have := (outerLoop_ok_mem contacts infected (emptyMapping infected) res
        hmet i hi c hc).2 hg1
      rw [hg2] at this
      simp at this
    | error e =>
      obtain ⟨f, hf⟩ :=
        outerLoop_error_shape contacts infected (emptyMapping infected) e hmet
      exact ⟨f, by rw [hf]⟩
  refine ⟨⟨fwd, bwd⟩, ?_⟩
  intro hno
  cases hmet : metWithInfected contacts with
  | ok res => exact ⟨res, rfl⟩
  | error e =>
    exfalso
    obtain ⟨f, hf⟩ :=
      outerLoop_error_shape contacts infected (emptyMapping infected) e hmet
    exact hno (fwd ⟨f, by rw [hmet, hf]⟩)

/-- Witness for C10: a record lacking `agent_2` whose `agent_1` is the
second infected identifier. -/
theorem agent2_access_iff_witness :
    ((∃ f, metWithInfected
        [[("agent_1", "1a57a4a3-0815-48a2-98be-00375fa5bda8")]] =
          .error (Err.fieldAccess f)) ↔
      (∃ c ∈ [[("agent_1", "1a57a4a3-0815-48a2-98be-00375fa5bda8")]],
        getField c "agent_2" = none ∧
          ∃ i ∈ infected, getField c "agent_1" = some i)) ∧
      ((¬ ∃ c ∈ [[("agent_1", "1a57a4a3-0815-48a2-98be-00375fa5bda8")]],
          getField c "agent_2" = none ∧
            ∃ i ∈ infected, getField c "agent_1" = some i) →
        ∃ res, metWithInfected
            [[("agent_1", "1a57a4a3-0815-48a2-98be-00375fa5bda8")]] =
          .ok res) :=
  agent2_access_iff [[("agent_1", "1a57a4a3-0815-48a2-98be-00375fa5bda8")]]
    (by decide)

end HospitalSim
